import Mathlib

/-!
Verification development for the vango static-site generator.

The definitions below are a shallow embedding of the Go source:
pure Go functions become Lean functions, the worker pools become folds
over an explicit processing order (a permutation chosen by the
scheduler), filesystem contents are passed in as explicit lists, and
the external collaborators (TOML/YAML decoders, the markdown
converter, time.Parse over the accepted layouts) are taken as function
parameters, as the spec treats them as external interfaces.
Machine integers do not overflow in any modelled computation
(word counts and timestamps are small), so Nat is used throughout.
-/

namespace Vango

/-! Go string helpers (strings.Fields, strings.Contains,
    strings.HasSuffix, strings.TrimSuffix) modelled on List Char. -/

/-- Models Go unicode.IsSpace restricted to the Latin-1 range, which is
the set relevant to strings.Fields on the content handled here. -/
def goIsSpace (c : Char) : Bool :=
  c = ' ' || c = '\t' || c = '\n' || c = Char.ofNat 11 || c = Char.ofNat 12 ||
  c = '\r' || c = Char.ofNat 0x85 || c = Char.ofNat 0xA0

/-- Accumulator pass of strings.Fields: splits a character list around
runs of whitespace; acc holds the current field reversed. -/
def fieldsAux : List Char → List Char → List (List Char)
  | [], acc => if acc.isEmpty then [] else [acc.reverse]
  | c :: rest, acc =>
    if goIsSpace c then
      if acc.isEmpty then fieldsAux rest []
      else acc.reverse :: fieldsAux rest []
    else fieldsAux rest (c :: acc)

/-- Models Go strings.Fields: the whitespace-separated words of a string. -/
def fields (s : String) : List String :=
  (fieldsAux s.data []).map (fun l => String.mk l)

/-- Substring test on character lists: the needle occurs as a
contiguous run somewhere in the haystack. -/
def listIsInfixOf (needle : List Char) : List Char → Bool
  | [] => needle.isEmpty
  | c :: rest => needle.isPrefixOf (c :: rest) || listIsInfixOf needle rest

/-- Models Go strings.Contains (substring test). -/
def goContains (s sub : String) : Bool :=
  listIsInfixOf sub.data s.data

/-- Models Go strings.HasSuffix. -/
def goHasSuffix (s suffix : String) : Bool :=
  suffix.data.isSuffixOf s.data

/-- Models Go strings.TrimSuffix. -/
def goTrimSuffix (s suffix : String) : String :=
  if goHasSuffix s suffix then
    String.mk (s.data.take (s.data.length - suffix.data.length))
  else s

/-- Scanning helper for stripHTML: after an opening angle bracket, drop
characters up to and including the first closing angle bracket, as the
regexp match of a tag does. Returns none when no closing bracket remains
(the regexp then has no match starting at this position). -/
def dropTag : List Char → Option (List Char)
  | [] => none
  | c :: rest => if c = '>' then some rest else dropTag rest

/-- Fueled scan of stripHTML over a character list; the fuel is the
input length, which bounds the number of steps since every step
consumes at least one character. -/
def stripHTMLAux : Nat → List Char → List Char
  | 0, l => l
  | _ + 1, [] => []
  | fuel + 1, c :: rest =>
    if c = '<' then
      match dropTag rest with
      | some rest2 => stripHTMLAux fuel rest2
      | none => c :: rest
    else c :: stripHTMLAux fuel rest

/-- Models Parser.stripHTML from internal/content/page.go: removes every
leftmost-first match of an HTML-tag regexp, i.e. every span from an
opening angle bracket through the next closing angle bracket. -/
def stripHTML (s : String) : String :=
  String.mk (stripHTMLAux s.data.length s.data)

/-- Models Parser.calculateReadingTime from internal/content/page.go:
average speed 200 words per minute, rounded up, minimum one minute. -/
def calculateReadingTime (wordCount : Nat) : Nat :=
  let minutes := (wordCount + 199) / 200
  if minutes < 1 then 1 else minutes

/-! The Document Model: the claim-relevant subset of content.Page.
    time.Time values are modelled as Nat timestamps with 0 as the zero
    value (time.Time.IsZero); feature-extraction fields (headings,
    images, links, code blocks, summary) are not modelled because no
    claim mentions them. -/

/-- A front-matter parameter value; the Go code stores
map of string to interface and type-asserts to string, so the model keeps a
string alternative and an opaque alternative for every other dynamic type. -/
inductive ParamVal where
  | str : String → ParamVal
  | other : ParamVal
deriving Repr, DecidableEq

/-- The claim-relevant fields of content.Page. -/
structure Page where
  title : String := ""
  date : String := ""
  parsedDate : Nat := 0
  draft : Bool := false
  publishDate : Nat := 0
  expiryDate : Nat := 0
  lastMod : Nat := 0
  params : List (String × ParamVal) := []
  content : String := ""
  wordCount : Nat := 0
  readingTime : Nat := 0
  slug : String := ""
  url : String := ""
  filePath : String := ""
deriving Repr, DecidableEq

/-- Models Page.ShouldBuild from internal/content/page.go: a page is
excluded when it is a draft and drafts are off, when its publish date
is set and in the future and future pages are off, or unconditionally
when its expiry date is set and in the past. -/
def shouldBuild (page : Page) (buildDrafts buildFuture : Bool) (now : Nat) : Bool :=
  if page.draft && !buildDrafts then false
  else if (!(page.publishDate == 0)) && decide (now < page.publishDate) && !buildFuture then false
  else if (!(page.expiryDate == 0)) && decide (page.expiryDate < now) then false
  else true

/-- The claim-relevant build flags of config.Config; buildExpired is
declared in the configuration but, as claim C9 observes, never consumed
by the build logic. -/
structure Config where
  buildDrafts : Bool := false
  buildFuture : Bool := false
  buildExpired : Bool := false
deriving Repr, DecidableEq

/-- Models the call site in builder.contentWorker, which passes exactly
the BuildDrafts and BuildFuture configuration flags to ShouldBuild. -/
def workerShouldBuild (cfg : Config) (page : Page) (now : Nat) : Bool :=
  shouldBuild page cfg.buildDrafts cfg.buildFuture now

/-! Association lists modelling Go maps (the file-modification cache
    and the named-template set). -/

/-- Lookup in an association list, modelling a Go map read. -/
def assocLookup {α : Type} : List (String × α) → String → Option α
  | [], _ => none
  | (k, v) :: rest, key => if k = key then some v else assocLookup rest key

/-- Insert or replace in an association list, modelling a Go map write. -/
def assocInsert {α : Type} : List (String × α) → String → α → List (String × α)
  | [], key, v => [(key, v)]
  | (k, v0) :: rest, key, v =>
    if k = key then (k, v) :: rest else (k, v0) :: assocInsert rest key v

/-- The builder's file-modification cache: source path to last observed
modification time. -/
abbrev ModCache := List (String × Nat)

/-- Models Builder.isFileModified from internal/builder: a path is
changed iff it is absent from the cache or its current mtime is
strictly newer than the cached one, and in exactly those cases the
cache entry is overwritten with the new mtime at check time. Returns
the classification together with the updated cache. -/
def isFileModified (cache : ModCache) (path : String) (modTime : Nat) : Bool × ModCache :=
  match assocLookup cache path with
  | none => (true, assocInsert cache path modTime)
  | some cached =>
    if cached < modTime then (true, assocInsert cache path modTime)
    else (false, cache)

/-! The Template Set Resolver (internal/template/engine.go).
    The engine's single html/template set is modelled as an association
    list from template name to template body; templates.New(name).Parse
    replaces the definition bound to an existing name.  A directory
    walk is modelled by the list of its regular files as pairs of
    slash-normalized relative path and file contents, in walk order. -/

/-- A named-template collection: template name to parsed template body. -/
abbrev TemplateSet := List (String × String)

/-- One step of the walk in Engine.parseAndAddTemplatesWithOverride:
a file without the html suffix is skipped; otherwise the template is
named by the relative path without the extension; when override is not
allowed an already-present name is skipped, otherwise the name is
bound (replacing any previous binding, as templates.New(name).Parse
does). -/
def addTemplateFile (ts : TemplateSet) (file : String × String)
    (allowOverride : Bool) : TemplateSet :=
  if !goHasSuffix file.fst ".html" then ts
  else
    let templateName := goTrimSuffix file.fst ".html"
    if !allowOverride && (assocLookup ts templateName).isSome then ts
    else assocInsert ts templateName file.snd

/-- Models Engine.parseAndAddTemplatesWithOverride: the walk applies
addTemplateFile to every file of the directory in walk order. -/
def parseAndAddTemplatesWithOverride (ts : TemplateSet) :
    List (String × String) → Bool → TemplateSet
  | [], _ => ts
  | file :: rest, allowOverride =>
    parseAndAddTemplatesWithOverride (addTemplateFile ts file allowOverride) rest allowOverride

/-- Models Engine.LoadTemplates: theme templates are loaded first, with
override allowed, when a theme layout directory is configured and
differs from the default layout directory; the default layout
directory is loaded second with override disallowed. -/
def loadTemplates (themeLayoutDir layoutDir : String)
    (themeFiles defaultFiles : List (String × String)) : TemplateSet :=
  let ts :=
    if themeLayoutDir ≠ "" ∧ themeLayoutDir ≠ layoutDir then
      parseAndAddTemplatesWithOverride [] themeFiles true
    else []
  parseAndAddTemplatesWithOverride ts defaultFiles false

/-! The Document Reader (Parser.ParseFile and helpers in
    internal/content/page.go).  A source file is given as its list of
    lines, as produced by the bufio line scanner. -/

/-- The outcome of the front-matter scan in ParseFile. -/
structure SplitDoc where
  frontMatter : List String
  delimiter : String
  body : List String
deriving Repr, DecidableEq

/-- Scan after an opening delimiter line: lines up to the first line
equal to the delimiter are front matter; everything after that line is
body (later delimiter lines are ordinary body lines, since the scan
flag is cleared once).  When the closing delimiter never appears, all
remaining lines stay in the front matter and the body is empty. -/
def fmSplitLoop (delimiter : String) : List String → List String × List String
  | [] => ([], [])
  | line :: rest =>
    if line = delimiter then ([], rest)
    else
      let scanned := fmSplitLoop delimiter rest
      (line :: scanned.fst, scanned.snd)

/-- Models the line loop of ParseFile: a first line of three plus signs
or three hyphens opens a front-matter block closed by the same
delimiter; any other first line means the whole file is body. -/
def splitDocument (lines : List String) : SplitDoc :=
  match lines with
  | [] => ⟨[], "", []⟩
  | firstLine :: rest =>
    if firstLine = "+++" || firstLine = "---" then
      let scanned := fmSplitLoop firstLine rest
      ⟨scanned.fst, firstLine, scanned.snd⟩
    else ⟨[], "", firstLine :: rest⟩

/-- Rebuilds the string a strings.Builder accumulates from the scanned
lines, each followed by a newline. -/
def unlines (lines : List String) : String :=
  String.join (lines.map (fun l => l ++ "\n"))

/-- Models the type-asserted read of a string parameter, as in
page.Params with a key and a string type assertion. -/
def lookupStrParam (params : List (String × ParamVal)) (key : String) : Option String :=
  match assocLookup params key with
  | some (ParamVal.str s) => some s
  | _ => none

/-- The first block of Parser.parseDates: the main date field, when
non-empty, is re-parsed; the first matching layout wins, and a string
matching no layout leaves the parsed date at its prior value.  The
argument tryParse abstracts the loop over the seven accepted
time.Parse layouts: it returns the timestamp of the first matching
layout, or none when no layout matches. -/
def parseMainDate (tryParse : String → Option Nat) (page : Page) : Page :=
  if page.date ≠ "" then
    match tryParse page.date with
    | some t => { page with parsedDate := t }
    | none => page
  else page

/-- The second block of Parser.parseDates: the publish date read from
the string-asserted publish_date parameter. -/
def parsePublishDate (tryParse : String → Option Nat) (page : Page) : Page :=
  match lookupStrParam page.params "publish_date" with
  | some s =>
    match tryParse s with
    | some t => { page with publishDate := t }
    | none => page
  | none => page

/-- The third block of Parser.parseDates: the expiry date read from
the string-asserted expiry_date parameter. -/
def parseExpiryDate (tryParse : String → Option Nat) (page : Page) : Page :=
  match lookupStrParam page.params "expiry_date" with
  | some s =>
    match tryParse s with
    | some t => { page with expiryDate := t }
    | none => page
  | none => page

/-- The fourth block of Parser.parseDates: the last-modified date read
from the string-asserted lastmod parameter. -/
def parseLastMod (tryParse : String → Option Nat) (page : Page) : Page :=
  match lookupStrParam page.params "lastmod" with
  | some s =>
    match tryParse s with
    | some t => { page with lastMod := t }
    | none => page
  | none => page

/-- Models Parser.parseDates: the four date fields are processed in
sequence; each is overwritten only on a successful parse, and no error
is ever produced (the Go function always returns nil). -/
def parseDates (tryParse : String → Option Nat) (page : Page) : Page :=
  parseLastMod tryParse (parseExpiryDate tryParse (parsePublishDate tryParse (parseMainDate tryParse page)))

/-- The decoder dispatch of Parser.parseFrontMatter: the delimiter
that opened the block selects the decoder, and any other delimiter
auto-detects the format (YAML when the text contains a colon and no
equals sign, TOML otherwise).  The external TOML and YAML decoders are
parameters that take the decoded text and the page being filled in. -/
def decodeFrontMatter (tomlDec yamlDec : String → Page → Except String Page)
    (content delimiter : String) (page : Page) : Except String Page :=
  match delimiter with
  | "+++" => tomlDec content page
  | "---" => yamlDec content page
  | _ =>
    if goContains content ":" && !goContains content "=" then yamlDec content page
    else tomlDec content page

/-- Models Parser.parseFrontMatter: decode the block, propagating a
decoder error, then parse the date fields of the decoded page. -/
def parseFrontMatter (tryParse : String → Option Nat)
    (tomlDec yamlDec : String → Page → Except String Page)
    (content delimiter : String) (page : Page) : Except String Page :=
  match decodeFrontMatter tomlDec yamlDec content delimiter page with
  | Except.error e => Except.error e
  | Except.ok decodedPage => Except.ok (parseDates tryParse decodedPage)

/-- Models Parser.processContent restricted to the claim-relevant
outputs: the external markdown converter produces the rendered body,
and the reading metrics are computed from the body before conversion,
as the whitespace-separated words of the body with HTML tags
stripped. -/
def processContent (convert : String → Except String String)
    (content : String) (page : Page) : Except String Page :=
  match convert content with
  | Except.error e => Except.error e
  | Except.ok htmlContent =>
    let words := fields (stripHTML content)
    Except.ok { page with
      content := htmlContent
      wordCount := words.length
      readingTime := calculateReadingTime words.length }

/-- Models filepath.Ext: the suffix of the path starting at the final
dot in the final path element, or empty when there is none. -/
def filepathExt (s : String) : String :=
  let rev := s.data.reverse
  let pre := rev.takeWhile (fun c => !(c = '.') && !(c = '/'))
  match rev.drop pre.length with
  | '.' :: _ => String.mk ('.' :: pre.reverse)
  | _ => ""

/-- Models Parser.generateURLs on the path relative to the content
directory: the slug is the relative path without its extension and
with backslashes normalized, and the URL wraps the slug in slashes. -/
def generateURLs (page : Page) (relPath : String) : Page :=
  let slug := goTrimSuffix relPath (filepathExt relPath)
  let slug := String.mk (slug.data.map (fun c => if c = '\\' then '/' else c))
  { page with slug := slug, url := "/" ++ slug ++ "/" }

/-- Models Parser.ParseFile on a file given as its list of lines.  The
page starts from defaults with the parse-time clock as its parsed
date; the front-matter block, when present and non-empty, is decoded
and its dates parsed; the body is converted and the reading metrics
computed; finally the slug and URL are derived from the relative
path.  File-system errors, the content hash, and setDefaults are
outside the modelled claims. -/
def parseFile (now : Nat) (tryParse : String → Option Nat)
    (tomlDec yamlDec : String → Page → Except String Page)
    (convert : String → Except String String)
    (relPath : String) (lines : List String) : Except String Page :=
  let sd := splitDocument lines
  let page0 : Page := { parsedDate := now, filePath := relPath }
  let fmText := unlines sd.frontMatter
  let decoded : Except String Page :=
    if fmText ≠ "" then
      parseFrontMatter tryParse tomlDec yamlDec fmText sd.delimiter page0
    else Except.ok page0
  match decoded with
  | Except.error e => Except.error ("failed to parse front matter in " ++ relPath ++ ": " ++ e)
  | Except.ok page1 =>
    match processContent convert (unlines sd.body) page1 with
    | Except.error e => Except.error ("failed to process content in " ++ relPath ++ ": " ++ e)
    | Except.ok page2 => Except.ok (generateURLs page2 relPath)

/-! The Build Pipeline (internal/builder).  The parse and render
    worker pools each drain a shared queue; the interleaving chosen by
    the scheduler determines the order in which results are collected
    from the result channels, so both stages are modelled as folds over
    an explicit processing order, a permutation of the enumeration
    order.  The abstract parse function stands for Parser.ParseFile on
    the file's on-disk contents, and the abstract render function for
    Engine.Render with the loaded template set. -/

/-- Models the work performed by the contentWorker pool over a given
collection order: every queued file is processed; a parse failure
contributes a wrapped error and processing continues with the next
file; a parsed page is collected only when ShouldBuild accepts it. -/
def contentWorkerRun (parse : String → Except String Page)
    (buildDrafts buildFuture : Bool) (now : Nat) :
    List String → List Page × List String
  | [] => ([], [])
  | f :: rest =>
    let collected := contentWorkerRun parse buildDrafts buildFuture now rest
    match parse f with
    | Except.error e =>
      (collected.fst, ("failed to parse " ++ f ++ ": " ++ e) :: collected.snd)
    | Except.ok page =>
      if shouldBuild page buildDrafts buildFuture now then
        (page :: collected.fst, collected.snd)
      else collected

/-- Models Builder.parseContentParallel after file enumeration: all
collected errors are inspected once the workers have drained the
queue, and the first collected error is returned; otherwise the
collected pages become the builder's page set. -/
def parseContentParallel (parse : String → Except String Page)
    (buildDrafts buildFuture : Bool) (now : Nat)
    (order : List String) : Except String (List Page) :=
  let collected := contentWorkerRun parse buildDrafts buildFuture now order
  match collected.snd with
  | [] => Except.ok collected.fst
  | e :: _ => Except.error ("content parsing errors: " ++ e)

/-- Models Builder.generatePage: render the page against the full page
set and write the result to the slug-derived output path; the write is
the pair of output path and rendered bytes. -/
def generatePage (render : Page → List Page → Except String String)
    (publicDir : String) (allPages : List Page) (page : Page) :
    Except String (String × String) :=
  match render page allPages with
  | Except.error e => Except.error e
  | Except.ok html => Except.ok (publicDir ++ "/" ++ page.slug ++ "/index.html", html)

/-- Models the pageWorker pool over a given processing order: every
queued page is rendered; successes are written to disk as they happen
and failures are collected without aborting the remaining pages. -/
def pageWorkerRun (render : Page → List Page → Except String String)
    (publicDir : String) (allPages : List Page) :
    List Page → List (String × String) × List String
  | [] => ([], [])
  | p :: rest =>
    let collected := pageWorkerRun render publicDir allPages rest
    match generatePage render publicDir allPages p with
    | Except.error e =>
      (collected.fst, ("failed to generate page " ++ p.filePath ++ ": " ++ e) :: collected.snd)
    | Except.ok w => (w :: collected.fst, collected.snd)

/-- A build outcome: the files written to disk during the build, and
the error (if any) that Build returns. -/
structure BuildResult where
  writes : List (String × String)
  result : Except String Unit
deriving Repr

/-- Models Builder.Build from the parse stage on, over the enumerated
content files (those the modification cache classified as changed) in
the collection order chosen by the scheduler: a parse-stage error is
returned before the render stage starts, so nothing is written in that
build; otherwise every page is rendered against the full collected
page set, successes are written, and the first render error (if any)
becomes the build error without rolling back the writes. -/
def build (parse : String → Except String Page)
    (render : Page → List Page → Except String String)
    (buildDrafts buildFuture : Bool) (now : Nat) (publicDir : String)
    (order : List String) : BuildResult :=
  match parseContentParallel parse buildDrafts buildFuture now order with
  | Except.error e => ⟨[], Except.error e⟩
  | Except.ok pages =>
    let rendered := pageWorkerRun render publicDir pages pages
    match rendered.snd with
    | [] => ⟨rendered.fst, Except.ok ()⟩
    | e :: _ => ⟨rendered.fst, Except.error ("page generation errors: " ++ e)⟩

/-! The Incremental/Dev Loop (the file watcher in internal/server). -/

/-- A filesystem event as the watcher sees it: the path, whether the
event has the write bit, and the wall-clock time (in milliseconds) at
which the loop handles it. -/
structure FsEvent where
  name : String
  isWrite : Bool
  time : Nat
deriving Repr, DecidableEq

/-- The fixed quiescence window of the watch loop, in milliseconds. -/
def debounceTime : Nat := 300

/-- Models the event filter of Server.watchFiles: hidden paths and
editor temporary suffixes are ignored. -/
def ignoredEvent (name : String) : Bool :=
  goContains name "/." || goHasSuffix name "~" || goHasSuffix name ".tmp"

/-- Models one iteration of the Server.watchFiles select loop: an
ignored path is skipped; a write event triggers a rebuild only when
more than debounceTime has elapsed since the last triggered rebuild,
and in that case the last-build clock is reset to this event's time.
Returns the updated last-build clock and whether a rebuild was
triggered. -/
def watchStep (lastBuild : Nat) (e : FsEvent) : Nat × Bool :=
  if ignoredEvent e.name then (lastBuild, false)
  else if e.isWrite && decide (debounceTime < e.time - lastBuild) then (e.time, true)
  else (lastBuild, false)

/-- Runs the watch loop over a finite trace of events, returning the
final last-build clock and the times of the triggered rebuilds.  Each
triggered rebuild leads to exactly one broadcast to the live-reload
subscribers: notifyClients of the reload message when the (incremental
or fallback full) rebuild succeeds, of the error message otherwise. -/
def watchRun (lastBuild : Nat) : List FsEvent → Nat × List Nat
  | [] => (lastBuild, [])
  | e :: rest =>
    let stepped := watchStep lastBuild e
    let tail := watchRun stepped.fst rest
    (tail.fst, if stepped.snd then e.time :: tail.snd else tail.snd)

/-- Models Server.notifyClients: one message is delivered per
subscriber whose bounded channel has room; a full channel is skipped
without blocking.  Each client is its queued messages with a capacity. -/
def notifyClients (capacity : Nat) (clients : List (List String))
    (message : String) : List (List String) :=
  clients.map (fun queue => if queue.length < capacity then queue ++ [message] else queue)

/-- Decidable equality for Except values, used to evaluate the model
on concrete inputs. -/
instance {ε α : Type} [DecidableEq ε] [DecidableEq α] : DecidableEq (Except ε α) := by
  intro x y
  cases x <;> cases y
  case error.error a b =>
    exact if h : a = b then Decidable.isTrue (by rw [h]) else Decidable.isFalse (fun hc => h (by injection hc))
  case error.ok a b => exact Decidable.isFalse (fun hc => by injection hc)
  case ok.error a b => exact Decidable.isFalse (fun hc => by injection hc)
  case ok.ok a b =>
    exact if h : a = b then Decidable.isTrue (by rw [h]) else Decidable.isFalse (fun hc => h (by injection hc))

/-! Concrete collaborators and inputs used by the witnesses and
    counterexamples below. -/

/-- A date parser under which every date string is malformed. -/
def tpNone : String → Option Nat := fun _ => none

/-- A TOML decoder stub that tags the page with the decoder it ran. -/
def exTomlDec : String → Page → Except String Page :=
  fun _ p => Except.ok { p with title := "TOML" }

/-- A YAML decoder stub that tags the page with the decoder it ran. -/
def exYamlDec : String → Page → Except String Page :=
  fun _ p => Except.ok { p with title := "YAML" }

/-- A markdown converter stub producing the rendered heading of the
welcome scenario. -/
def exConvert : String → Except String String :=
  fun _ => Except.ok "<h1>Hi</h1>\n"

/-- The theme directory of the template-override scenario. -/
def themeFilesEx : List (String × String) := [("_default/single.html", "<h1>THEME</h1>")]

/-- The default layout directory of the template-override scenario. -/
def defaultFilesEx : List (String × String) := [("_default/single.html", "<h1>DEFAULT</h1>")]

/-- A page whose expiry date has passed by time 10. -/
def pageExpired : Page := { expiryDate := 5 }

/-- The date parser of the welcome scenario: only the scenario's date
string matches an accepted layout. -/
def tpWelcome : String → Option Nat :=
  fun s => if s = "2024-01-01" then some 1704067200 else none

/-- A decoder producing the front-matter fields of the welcome
scenario. -/
def welcomeDec : String → Page → Except String Page :=
  fun _ p => Except.ok { p with title := "Welcome", date := "2024-01-01", draft := false }

/-- The welcome scenario source file, as scanned lines. -/
def welcomeLines : List String :=
  ["+++", "title = \"Welcome\"", "date = \"2024-01-01\"", "draft = false", "+++", "# Hi"]

/-- The page the welcome scenario produces in the model. -/
def pageWelcome : Page :=
  { title := "Welcome", date := "2024-01-01", parsedDate := 1704067200,
    draft := false, content := "<h1>Hi</h1>\n", wordCount := 2, readingTime := 1,
    slug := "welcome", url := "/welcome/", filePath := "welcome.md" }

/-- A converter stub with a fixed output, for the word-count witness. -/
def convX : String → Except String String := fun _ => Except.ok "X"

/-- The page processContent produces from the heading body under convX. -/
def pageHiX : Page := { content := "X", wordCount := 2, readingTime := 1 }

/-- A page that parses successfully in the failing-batch scenario. -/
def exGoodPage : Page := { title := "Good", slug := "good", filePath := "good.md" }

/-- A parse function with one failing file and one succeeding file. -/
def exParse : String → Except String Page :=
  fun f => if f = "bad.md" then Except.error "boom" else Except.ok exGoodPage

/-- A render function that ignores the page list. -/
def exRender : Page → List Page → Except String String :=
  fun p _ => Except.ok p.title

/-- The first page of the scheduling-order scenario. -/
def pageA : Page := { title := "A", slug := "a", filePath := "a.md" }

/-- The second page of the scheduling-order scenario. -/
def pageB : Page := { title := "B", slug := "b", filePath := "b.md" }

/-- A parse function producing the two pages of the scheduling-order
scenario. -/
def exParseAB : String → Except String Page :=
  fun f => if f = "a.md" then Except.ok pageA else Except.ok pageB

/-- An order-sensitive render function: it concatenates the titles of
the full page set in collection order, as a template ranging over the
page list does. -/
def renderTitles : Page → List Page → Except String String :=
  fun _ pages => Except.ok (String.join (pages.map Page.title))

/-- The event burst of the throttling counterexample: three qualifying
write events to the same content file, successive events 200
milliseconds apart. -/
def burstEvents : List FsEvent :=
  [⟨"content/a.md", true, 1000⟩, ⟨"content/a.md", true, 1200⟩, ⟨"content/a.md", true, 1400⟩]

/-! Helper lemmas shared by the claim theorems. -/

/-- Inserting a binding makes it visible under its own key. -/
theorem assocLookup_insert_self {α : Type} (l : List (String × α)) (k : String) (v : α) :
    assocLookup (assocInsert l k v) k = some v := by
  induction l with
  | nil => simp [assocInsert, assocLookup]
  | cons hd tl ih =>
    obtain ⟨k0, v0⟩ := hd
    by_cases h : k0 = k
    · simp [assocInsert, assocLookup, h]
    · simp [assocInsert, assocLookup, h, ih]

/-- Inserting a binding leaves other keys unchanged. -/
theorem assocLookup_insert_ne {α : Type} (l : List (String × α)) (k : String) (v : α)
    (key : String) (hne : k ≠ key) :
    assocLookup (assocInsert l k v) key = assocLookup l key := by
  induction l with
  | nil => simp [assocInsert, assocLookup, hne]
  | cons hd tl ih =>
    obtain ⟨k0, v0⟩ := hd
    by_cases h : k0 = k
    · subst h
      simp [assocInsert, assocLookup, hne]
    · simp [assocInsert, assocLookup, h, ih]

/-- C2: the Modification Cache classifies a path as changed iff it is
absent or its current mtime is strictly newer than the cached value;
the cache entry is overwritten with the new mtime exactly when the
path is classified as changed, and the update happens at check time,
so an immediate re-check with the same mtime (the situation of the
next build after a failed parse, which never touches the cache) is
classified as unchanged. -/
theorem isFileModified_spec (cache : ModCache) (path : String) (modTime : Nat) :
    ((isFileModified cache path modTime).fst = true ↔
      assocLookup cache path = none ∨
      ∃ cached, assocLookup cache path = some cached ∧ cached < modTime)
    ∧ (isFileModified cache path modTime).snd =
        (if (isFileModified cache path modTime).fst = true
         then assocInsert cache path modTime else cache)
    ∧ (isFileModified (isFileModified cache path modTime).snd path modTime).fst = false := by
  refine ⟨?_, ?_, ?_⟩
  · cases h : assocLookup cache path with
    | none => simp [isFileModified, h]
    | some cached =>
      by_cases hlt : cached < modTime
      · simp [isFileModified, h, hlt]
      · simp [isFileModified, h, hlt]
  · cases h : assocLookup cache path with
    | none => simp [isFileModified, h]
    | some cached =>
      by_cases hlt : cached < modTime
      · simp [isFileModified, h, hlt]
      · simp [isFileModified, h, hlt]
  · cases h : assocLookup cache path with
    | none =>
      have hsnd : (isFileModified cache path modTime).snd = assocInsert cache path modTime := by
        simp [isFileModified, h]
      rw [hsnd]
      simp [isFileModified, assocLookup_insert_self]
    | some cached =>
      by_cases hlt : cached < modTime
      · have hsnd : (isFileModified cache path modTime).snd = assocInsert cache path modTime := by
          simp [isFileModified, h, hlt]
        rw [hsnd]
        simp [isFileModified, assocLookup_insert_self]
      · have hsnd : (isFileModified cache path modTime).snd = cache := by
          simp [isFileModified, h, hlt]
        rw [hsnd]
        simp [isFileModified, h, hlt]

/-- Witness for C2 at a concrete cache: a cached path with a strictly
newer mtime is classified as changed. -/
theorem isFileModified_spec_witness :
    (isFileModified [("a.md", 5)] "a.md" 9).fst = true :=
  (isFileModified_spec [("a.md", 5)] "a.md" 9).1.mpr (Or.inr ⟨5, rfl, by decide⟩)

/-- C4: the reading-time estimate equals the number of words divided
by 200 rounded up, with a minimum of one minute; in particular zero
words give one minute. -/
theorem calculateReadingTime_is_ceil (w : Nat) :
    (calculateReadingTime w : ℤ) = max 1 ⌈(w : ℚ) / 200⌉ := by
  have hmod := Nat.div_add_mod (w + 199) 200
  have hrlt : (w + 199) % 200 < 200 := Nat.mod_lt _ (by norm_num)
  set q := (w + 199) / 200 with hq
  set r := (w + 199) % 200 with hr
  have hle : (w : ℤ) ≤ 200 * q := by omega
  have hgt : (200 : ℤ) * q < (w : ℤ) + 200 := by omega
  have hceil : ⌈(w : ℚ) / 200⌉ = (q : ℤ) := by
    rw [Int.ceil_eq_iff]
    constructor
    · rw [lt_div_iff (show (0 : ℚ) < 200 by norm_num)]
      have hgtQ : (200 : ℚ) * q < (w : ℚ) + 200 := by exact_mod_cast hgt
      push_cast
      linarith
    · rw [div_le_iff (show (0 : ℚ) < 200 by norm_num)]
      have hleQ : (w : ℚ) ≤ 200 * q := by exact_mod_cast hle
      push_cast
      linarith
  rw [hceil]
  simp only [calculateReadingTime]
  rw [← hq]
  by_cases hql : q < 1
  · have hq0 : q = 0 := by omega
    rw [if_pos hql, hq0]
    simp
  · rw [if_neg hql]
    have h1q : (1 : ℤ) ≤ (q : ℤ) := by
      exact_mod_cast Nat.one_le_iff_ne_zero.mpr (by omega)
    rw [max_eq_right h1q]

/-- Witness for C4 at a concrete word count just above one page of
reading. -/
theorem calculateReadingTime_is_ceil_witness :
    (calculateReadingTime 401 : ℤ) = max 1 ⌈((401 : ℕ) : ℚ) / 200⌉ :=
  calculateReadingTime_is_ceil 401

/-- C9: expiry exclusion is unconditional; a page whose expiry date is
set and strictly in the past is excluded by ShouldBuild for every
combination of the draft and future flags, and in particular for the
flags the content worker passes from the configuration, whatever the
configuration's buildExpired field says. -/
theorem shouldBuild_expired_excluded (cfg : Config) (page : Page) (now : Nat)
    (hset : page.expiryDate ≠ 0) (hpast : page.expiryDate < now) :
    (∀ buildDrafts buildFuture : Bool,
      shouldBuild page buildDrafts buildFuture now = false)
    ∧ workerShouldBuild cfg page now = false := by
  have key : ∀ d f : Bool, shouldBuild page d f now = false := by
    intro d f
    have h1 : (page.expiryDate == 0) = false := beq_eq_false_iff_ne.mpr hset
    have h2 : decide (page.expiryDate < now) = true := decide_eq_true hpast
    simp [shouldBuild, h1, h2]
  exact ⟨key, key cfg.buildDrafts cfg.buildFuture⟩

/-- Witness for C9 at a concrete expired page and configuration. -/
theorem shouldBuild_expired_excluded_witness :
    shouldBuild pageExpired true true 10 = false :=
  (shouldBuild_expired_excluded {} pageExpired 10 (by decide) (by decide)).1 true true

/-- The default-layout phase never clobbers an existing template: a
walk with override disallowed preserves every binding already present
in the set. -/
theorem parseAndAdd_noOverride_preserves (files : List (String × String))
    (ts : TemplateSet) (name body : String)
    (h : assocLookup ts name = some body) :
    assocLookup (parseAndAddTemplatesWithOverride ts files false) name = some body := by
  induction files generalizing ts with
  | nil => simpa [parseAndAddTemplatesWithOverride] using h
  | cons file rest ih =>
    show assocLookup
      (parseAndAddTemplatesWithOverride (addTemplateFile ts file false) rest false) name = some body
    apply ih
    unfold addTemplateFile
    by_cases hsuf : goHasSuffix file.fst ".html"
    · rw [if_neg (by simp [hsuf])]
      by_cases heq : goTrimSuffix file.fst ".html" = name
      · have hsome : (assocLookup ts (goTrimSuffix file.fst ".html")).isSome = true := by
          rw [heq, h]
          rfl
        simp [hsome, h]
      · by_cases hskip : (assocLookup ts (goTrimSuffix file.fst ".html")).isSome
        · simp [hskip, h]
        · simp only [hskip]
          rw [if_neg (by simp)]
          rw [assocLookup_insert_ne ts _ _ name heq]
          exact h
    · rw [if_pos (by simp [hsuf])]
      exact h

/-- C1: template-set loading gives the theme priority; any template
name the theme phase bound is still bound to the theme's body after
the default-layout phase, because defaults are added only when the
name is absent.  In particular a default-directory template named like
a theme template never replaces it. -/
theorem loadTemplates_theme_priority (themeLayoutDir layoutDir : String)
    (themeFiles defaultFiles : List (String × String)) (name body : String)
    (hne : themeLayoutDir ≠ "") (hdiff : themeLayoutDir ≠ layoutDir)
    (htheme : assocLookup (parseAndAddTemplatesWithOverride [] themeFiles true) name = some body) :
    assocLookup (loadTemplates themeLayoutDir layoutDir themeFiles defaultFiles) name = some body := by
  unfold loadTemplates
  rw [if_pos ⟨hne, hdiff⟩]
  exact parseAndAdd_noOverride_preserves defaultFiles _ name body htheme

/-- Witness for C1 at the concrete scenario of the spec: both
directories define a single template, and the lookup after loading
renders the theme's body. -/
theorem loadTemplates_theme_priority_witness :
    assocLookup (loadTemplates "themes/mytheme/layouts" "layouts" themeFilesEx defaultFilesEx)
      "_default/single" = some "<h1>THEME</h1>" :=
  loadTemplates_theme_priority "themes/mytheme/layouts" "layouts" themeFilesEx defaultFilesEx
    "_default/single" "<h1>THEME</h1>" (by decide) (by decide) (by rfl)

/-- A file whose first line is not a recognized delimiter is split
into an empty front matter and an all-lines body. -/
theorem splitDocument_no_delim (firstLine : String) (rest : List String)
    (h1 : firstLine ≠ "+++") (h2 : firstLine ≠ "---") :
    splitDocument (firstLine :: rest) = ⟨[], "", firstLine :: rest⟩ := by
  simp [splitDocument, h1, h2]

/-- Inversion for processContent: a successful run records the
converter output as the rendered body and computes the reading metrics
from the pre-conversion body, leaving every other field unchanged. -/
theorem processContent_eq (convert : String → Except String String)
    (content : String) (page p2 : Page)
    (h : processContent convert content page = Except.ok p2) :
    ∃ htmlContent, convert content = Except.ok htmlContent ∧
      p2 = { page with
        content := htmlContent
        wordCount := (fields (stripHTML content)).length
        readingTime := calculateReadingTime (fields (stripHTML content)).length } := by
  unfold processContent at h
  cases hc : convert content with
  | error e => rw [hc] at h; exact absurd h (by simp)
  | ok htmlContent =>
    rw [hc] at h
    refine ⟨htmlContent, rfl, ?_⟩
    injection h with h
    exact h.symm

/-- A file whose first line is not a recognized delimiter skips the
front-matter decoder entirely: the parse is the body processing of all
lines applied to the default page. -/
theorem parseFile_no_delim_eq (now : Nat) (tp : String → Option Nat)
    (tomlDec yamlDec : String → Page → Except String Page)
    (convert : String → Except String String) (relPath firstLine : String)
    (rest : List String) (h1 : firstLine ≠ "+++") (h2 : firstLine ≠ "---") :
    parseFile now tp tomlDec yamlDec convert relPath (firstLine :: rest) =
      (match processContent convert (unlines (firstLine :: rest))
          { parsedDate := now, filePath := relPath } with
       | Except.error e =>
          Except.error ("failed to process content in " ++ relPath ++ ": " ++ e)
       | Except.ok page2 => Except.ok (generateURLs page2 relPath)) := by
  unfold parseFile
  rw [splitDocument_no_delim firstLine rest h1 h2]
  rfl

/-- Parser.parseFrontMatter is the decode dispatch followed by date
parsing on success. -/
theorem parseFrontMatter_eq_map (tp : String → Option Nat)
    (tomlDec yamlDec : String → Page → Except String Page)
    (c d : String) (page : Page) :
    parseFrontMatter tp tomlDec yamlDec c d page =
      (decodeFrontMatter tomlDec yamlDec c d page).map (parseDates tp) := by
  cases h : decodeFrontMatter tomlDec yamlDec c d page <;>
    simp [parseFrontMatter, h, Except.map]

/-- C5 (amended): metadata decoding is dispatched on the delimiter
that opened the block: three plus signs select the TOML decoder and
three hyphens the YAML decoder; any other delimiter is not an error
but auto-detects the format (YAML when the text contains a colon and
no equals sign, TOML otherwise) — though ParseFile only ever opens a
block on the two recognized delimiters; and a file with no leading
delimiter is all body: the split keeps every line in the body, the
result does not depend on the decoders at all, and the page keeps the
default metadata. -/
theorem parseFrontMatter_dispatch_semantics (tp : String → Option Nat)
    (tomlDec yamlDec : String → Page → Except String Page)
    (c : String) (page : Page) :
    (parseFrontMatter tp tomlDec yamlDec c "+++" page = (tomlDec c page).map (parseDates tp))
    ∧ (parseFrontMatter tp tomlDec yamlDec c "---" page = (yamlDec c page).map (parseDates tp))
    ∧ (∀ d, d ≠ "+++" → d ≠ "---" →
        parseFrontMatter tp tomlDec yamlDec c d page =
          (if goContains c ":" && !goContains c "=" then yamlDec c page
           else tomlDec c page).map (parseDates tp))
    ∧ (∀ firstLine rest, firstLine ≠ "+++" → firstLine ≠ "---" →
        splitDocument (firstLine :: rest) = ⟨[], "", firstLine :: rest⟩)
    ∧ (∀ (now : Nat) (convert : String → Except String String) (relPath firstLine : String)
        (rest : List String) (toml2 yaml2 : String → Page → Except String Page),
        firstLine ≠ "+++" → firstLine ≠ "---" →
        parseFile now tp tomlDec yamlDec convert relPath (firstLine :: rest) =
          parseFile now tp toml2 yaml2 convert relPath (firstLine :: rest))
    ∧ (∀ (now : Nat) (convert : String → Except String String) (relPath firstLine : String)
        (rest : List String) (p : Page),
        firstLine ≠ "+++" → firstLine ≠ "---" →
        parseFile now tp tomlDec yamlDec convert relPath (firstLine :: rest) = Except.ok p →
        p.draft = false ∧ p.parsedDate = now ∧ p.title = "" ∧ p.date = "" ∧ p.params = []) := by
  refine ⟨?_, ?_, ?_, ?_, ?_, ?_⟩
  · rw [parseFrontMatter_eq_map]
    rfl
  · rw [parseFrontMatter_eq_map]
    rfl
  · intro d h1 h2
    rw [parseFrontMatter_eq_map]
    have hd : decodeFrontMatter tomlDec yamlDec c d page =
        (if goContains c ":" && !goContains c "=" then yamlDec c page
         else tomlDec c page) := by
      unfold decodeFrontMatter
      split
      · exact absurd rfl h1
      · exact absurd rfl h2
      · rfl
    rw [hd]
  · exact fun firstLine rest h1 h2 => splitDocument_no_delim firstLine rest h1 h2
  · intro now convert relPath firstLine rest toml2 yaml2 h1 h2
    rw [parseFile_no_delim_eq now tp tomlDec yamlDec convert relPath firstLine rest h1 h2,
      parseFile_no_delim_eq now tp toml2 yaml2 convert relPath firstLine rest h1 h2]
  · intro now convert relPath firstLine rest p h1 h2 hok
    rw [parseFile_no_delim_eq now tp tomlDec yamlDec convert relPath firstLine rest h1 h2] at hok
    cases hpc : processContent convert (unlines (firstLine :: rest))
        { parsedDate := now, filePath := relPath } with
    | error e => rw [hpc] at hok; exact absurd hok (by simp)
    | ok p2 =>
      rw [hpc] at hok
      obtain ⟨htmlContent, _, hp2⟩ :=
        processContent_eq convert (unlines (firstLine :: rest)) _ p2 hpc
      have hp : p = generateURLs p2 relPath := by
        injection hok with h
        exact h.symm
      subst hp
      subst hp2
      simp [generateURLs]

/-- Counterexample for C5 as frozen: an unrecognized delimiter does
not produce an error; the front-matter text is silently decoded by the
auto-detected YAML decoder. -/
theorem parseFrontMatter_fallback_counterexample :
    parseFrontMatter tpNone exTomlDec exYamlDec "title: x\n" "~~~" {} =
      Except.ok { title := "YAML" } := by
  rfl

/-- Witness for C5 at concrete inputs: a file whose first line is not
a delimiter parses identically under two unrelated decoder pairs. -/
theorem parseFrontMatter_dispatch_semantics_witness :
    parseFile 7 tpNone exTomlDec exYamlDec convX "a.md" ["hello"] =
      parseFile 7 tpNone welcomeDec welcomeDec convX "a.md" ["hello"] :=
  (parseFrontMatter_dispatch_semantics tpNone exTomlDec exYamlDec "" {}).2.2.2.2.1
    7 convX "a.md" "hello" [] welcomeDec welcomeDec (by decide) (by decide)

/-- A main date matching no layout leaves the page unchanged. -/
theorem parseMainDate_of_none (tp : String → Option Nat) (page : Page)
    (h : tp page.date = none) : parseMainDate tp page = page := by
  by_cases hd : page.date ≠ "" <;> simp [parseMainDate, hd, h]

/-- The main-date block touches only the parsed date. -/
theorem parseMainDate_fields (tp : String → Option Nat) (page : Page) :
    (parseMainDate tp page).params = page.params ∧
    (parseMainDate tp page).publishDate = page.publishDate ∧
    (parseMainDate tp page).expiryDate = page.expiryDate ∧
    (parseMainDate tp page).lastMod = page.lastMod := by
  by_cases hd : page.date ≠ ""
  · cases ht : tp page.date <;> simp [parseMainDate, hd, ht]
  · simp [parseMainDate, hd]

/-- A publish date matching no layout leaves the page unchanged. -/
theorem parsePublishDate_of_none (tp : String → Option Nat) (page : Page) (s : String)
    (hs : lookupStrParam page.params "publish_date" = some s) (h : tp s = none) :
    parsePublishDate tp page = page := by
  simp [parsePublishDate, hs, h]

/-- The publish-date block touches only the publish date. -/
theorem parsePublishDate_fields (tp : String → Option Nat) (page : Page) :
    (parsePublishDate tp page).params = page.params ∧
    (parsePublishDate tp page).parsedDate = page.parsedDate ∧
    (parsePublishDate tp page).expiryDate = page.expiryDate ∧
    (parsePublishDate tp page).lastMod = page.lastMod := by
  cases hl : lookupStrParam page.params "publish_date" with
  | none => simp [parsePublishDate, hl]
  | some s => cases ht : tp s <;> simp [parsePublishDate, hl, ht]

/-- An expiry date matching no layout leaves the page unchanged. -/
theorem parseExpiryDate_of_none (tp : String → Option Nat) (page : Page) (s : String)
    (hs : lookupStrParam page.params "expiry_date" = some s) (h : tp s = none) :
    parseExpiryDate tp page = page := by
  simp [parseExpiryDate, hs, h]

/-- The expiry-date block touches only the expiry date. -/
theorem parseExpiryDate_fields (tp : String → Option Nat) (page : Page) :
    (parseExpiryDate tp page).params = page.params ∧
    (parseExpiryDate tp page).parsedDate = page.parsedDate ∧
    (parseExpiryDate tp page).publishDate = page.publishDate ∧
    (parseExpiryDate tp page).lastMod = page.lastMod := by
  cases hl : lookupStrParam page.params "expiry_date" with
  | none => simp [parseExpiryDate, hl]
  | some s => cases ht : tp s <;> simp [parseExpiryDate, hl, ht]

/-- A last-modified date matching no layout leaves the page unchanged. -/
theorem parseLastMod_of_none (tp : String → Option Nat) (page : Page) (s : String)
    (hs : lookupStrParam page.params "lastmod" = some s) (h : tp s = none) :
    parseLastMod tp page = page := by
  simp [parseLastMod, hs, h]

/-- The last-modified block touches only the last-modified date. -/
theorem parseLastMod_fields (tp : String → Option Nat) (page : Page) :
    (parseLastMod tp page).params = page.params ∧
    (parseLastMod tp page).parsedDate = page.parsedDate ∧
    (parseLastMod tp page).publishDate = page.publishDate ∧
    (parseLastMod tp page).expiryDate = page.expiryDate := by
  cases hl : lookupStrParam page.params "lastmod" with
  | none => simp [parseLastMod, hl]
  | some s => cases ht : tp s <;> simp [parseLastMod, hl, ht]

/-- When no date string matches any accepted layout, date parsing is
the identity. -/
theorem parseDates_of_all_none (tp : String → Option Nat)
    (h : ∀ s, tp s = none) (page : Page) : parseDates tp page = page := by
  unfold parseDates
  rw [parseMainDate_of_none tp page (h _)]
  have hpub : parsePublishDate tp page = page := by
    cases hl : lookupStrParam page.params "publish_date" with
    | none => simp [parsePublishDate, hl]
    | some s => simp [parsePublishDate, hl, h s]
  rw [hpub]
  have hexp : parseExpiryDate tp page = page := by
    cases hl : lookupStrParam page.params "expiry_date" with
    | none => simp [parseExpiryDate, hl]
    | some s => simp [parseExpiryDate, hl, h s]
  rw [hexp]
  cases hl : lookupStrParam page.params "lastmod" with
  | none => simp [parseLastMod, hl]
  | some s => simp [parseLastMod, hl, h s]

/-- The decoder dispatch always runs one of the two decoders on the
block text and the page: there is no third outcome. -/
theorem decodeFrontMatter_cases (tomlDec yamlDec : String → Page → Except String Page)
    (c d : String) (page : Page) :
    decodeFrontMatter tomlDec yamlDec c d page = tomlDec c page ∨
    decodeFrontMatter tomlDec yamlDec c d page = yamlDec c page := by
  unfold decodeFrontMatter
  split
  · exact Or.inl rfl
  · exact Or.inr rfl
  · split
    · exact Or.inr rfl
    · exact Or.inl rfl

/-- Body processing succeeds exactly when the markdown converter
does. -/
theorem processContent_isOk (convert : String → Except String String)
    (content : String) (page : Page) :
    (processContent convert content page).isOk = (convert content).isOk := by
  cases h : convert content <;> simp [processContent, h, Except.isOk, Except.toBool]

/-- Front-matter parsing succeeds exactly when the selected decoder
does: the date-parsing pass never fails. -/
theorem parseFrontMatter_isOk (tp : String → Option Nat)
    (tomlDec yamlDec : String → Page → Except String Page)
    (c d : String) (page : Page) :
    (parseFrontMatter tp tomlDec yamlDec c d page).isOk =
      (decodeFrontMatter tomlDec yamlDec c d page).isOk := by
  cases h : decodeFrontMatter tomlDec yamlDec c d page <;>
    simp [parseFrontMatter, h, Except.isOk, Except.toBool]

/-- A whole-file parse succeeds exactly when the front-matter decode
(when a block is present) and the markdown conversion succeed; the
date strings never decide success. -/
theorem parseFile_isOk (now : Nat) (tp : String → Option Nat)
    (tomlDec yamlDec : String → Page → Except String Page)
    (convert : String → Except String String) (relPath : String) (lines : List String) :
    (parseFile now tp tomlDec yamlDec convert relPath lines).isOk =
      ((if unlines (splitDocument lines).frontMatter ≠ "" then
          parseFrontMatter tp tomlDec yamlDec (unlines (splitDocument lines).frontMatter)
            (splitDocument lines).delimiter { parsedDate := now, filePath := relPath }
        else Except.ok { parsedDate := now, filePath := relPath }).isOk
       && (convert (unlines (splitDocument lines).body)).isOk) := by
  simp only [parseFile]
  split
  next e heq =>
    rw [heq]
    rfl
  next page1 heq =>
    rw [heq]
    split
    next e2 heq2 =>
      have h := processContent_isOk convert (unlines (splitDocument lines).body) page1
      rw [heq2] at h
      exact h
    next page2 heq2 =>
      have h := processContent_isOk convert (unlines (splitDocument lines).body) page1
      rw [heq2] at h
      exact h

/-- C10: an unparseable date string never fails the parse: each date
field whose source string matches no accepted layout keeps its prior
value; whether ParseFile succeeds is independent of the date parser;
and when no date string is parseable and the decoders do not touch the
parsed-date field, the parsed document carries the time-of-parse
default as its publication date. -/
theorem parseDates_malformed_ignored :
    (∀ (tp : String → Option Nat) (page : Page),
      (tp page.date = none → (parseDates tp page).parsedDate = page.parsedDate)
      ∧ (∀ s, lookupStrParam page.params "publish_date" = some s → tp s = none →
          (parseDates tp page).publishDate = page.publishDate)
      ∧ (∀ s, lookupStrParam page.params "expiry_date" = some s → tp s = none →
          (parseDates tp page).expiryDate = page.expiryDate)
      ∧ (∀ s, lookupStrParam page.params "lastmod" = some s → tp s = none →
          (parseDates tp page).lastMod = page.lastMod))
    ∧ (∀ (now : Nat) (tp1 tp2 : String → Option Nat)
        (tomlDec yamlDec : String → Page → Except String Page)
        (convert : String → Except String String) (relPath : String) (lines : List String),
        (parseFile now tp1 tomlDec yamlDec convert relPath lines).isOk =
        (parseFile now tp2 tomlDec yamlDec convert relPath lines).isOk)
    ∧ (∀ (now : Nat) (tp : String → Option Nat)
        (tomlDec yamlDec : String → Page → Except String Page)
        (convert : String → Except String String) (relPath : String)
        (lines : List String) (p : Page),
        (∀ c q r, tomlDec c q = Except.ok r → r.parsedDate = q.parsedDate) →
        (∀ c q r, yamlDec c q = Except.ok r → r.parsedDate = q.parsedDate) →
        (∀ s, tp s = none) →
        parseFile now tp tomlDec yamlDec convert relPath lines = Except.ok p →
        p.parsedDate = now) := by
  refine ⟨?_, ?_, ?_⟩
  · intro tp page
    refine ⟨?_, ?_, ?_, ?_⟩
    · intro h
      unfold parseDates
      rw [parseMainDate_of_none tp page h]
      exact (parseLastMod_fields tp _).2.1.trans
        ((parseExpiryDate_fields tp _).2.1.trans (parsePublishDate_fields tp page).2.1)
    · intro s hs h
      unfold parseDates
      have hparams := (parseMainDate_fields tp page).1
      have hs1 : lookupStrParam (parseMainDate tp page).params "publish_date" = some s := by
        rw [hparams, hs]
      rw [parsePublishDate_of_none tp _ s hs1 h]
      exact ((parseLastMod_fields tp _).2.2.1.trans
        (parseExpiryDate_fields tp _).2.2.1).trans (parseMainDate_fields tp page).2.1
    · intro s hs h
      unfold parseDates
      have hparams1 := (parseMainDate_fields tp page).1
      have hparams2 := (parsePublishDate_fields tp (parseMainDate tp page)).1
      have hs2 : lookupStrParam (parsePublishDate tp (parseMainDate tp page)).params
          "expiry_date" = some s := by
        rw [hparams2, hparams1, hs]
      rw [parseExpiryDate_of_none tp _ s hs2 h]
      exact (parseLastMod_fields tp _).2.2.2.trans
        ((parsePublishDate_fields tp _).2.2.1.trans (parseMainDate_fields tp page).2.2.1)
    · intro s hs h
      unfold parseDates
      have hparams1 := (parseMainDate_fields tp page).1
      have hparams2 := (parsePublishDate_fields tp (parseMainDate tp page)).1
      have hparams3 :=
        (parseExpiryDate_fields tp (parsePublishDate tp (parseMainDate tp page))).1
      have hs3 : lookupStrParam
          (parseExpiryDate tp (parsePublishDate tp (parseMainDate tp page))).params
          "lastmod" = some s := by
        rw [hparams3, hparams2, hparams1, hs]
      rw [parseLastMod_of_none tp _ s hs3 h]
      exact (parseExpiryDate_fields tp _).2.2.2.trans
        ((parsePublishDate_fields tp _).2.2.2.trans (parseMainDate_fields tp page).2.2.2)
  · intro now tp1 tp2 tomlDec yamlDec convert relPath lines
    rw [parseFile_isOk, parseFile_isOk]
    by_cases hfm : unlines (splitDocument lines).frontMatter ≠ ""
    · rw [if_pos hfm, if_pos hfm, parseFrontMatter_isOk, parseFrontMatter_isOk]
    · rw [if_neg hfm, if_neg hfm]
  · intro now tp tomlDec yamlDec convert relPath lines p hT hY hTP hok
    simp only [parseFile] at hok
    split at hok
    next e heq => exact absurd hok (by simp)
    next page1 heq =>
      split at hok
      next e2 heq2 => exact absurd hok (by simp)
      next page2 heq2 =>
        have hp : p = generateURLs page2 relPath := by
          injection hok with hh
          exact hh.symm
        have hpage1 : page1.parsedDate = now := by
          by_cases hfm : unlines (splitDocument lines).frontMatter ≠ ""
          · rw [if_pos hfm, parseFrontMatter_eq_map] at heq
            cases hd : decodeFrontMatter tomlDec yamlDec
                (unlines (splitDocument lines).frontMatter) (splitDocument lines).delimiter
                { parsedDate := now, filePath := relPath } with
            | error e => rw [hd] at heq; exact absurd heq (by simp [Except.map])
            | ok q =>
              rw [hd] at heq
              have hq1 : parseDates tp q = page1 := by
                simpa [Except.map] using heq
              rw [parseDates_of_all_none tp hTP q] at hq1
              subst hq1
              rcases decodeFrontMatter_cases tomlDec yamlDec
                  (unlines (splitDocument lines).frontMatter) (splitDocument lines).delimiter
                  { parsedDate := now, filePath := relPath } with hcase | hcase
              · rw [hcase] at hd
                exact hT _ _ _ hd
              · rw [hcase] at hd
                exact hY _ _ _ hd
          · rw [if_neg hfm] at heq
            injection heq with hh
            rw [← hh]
        obtain ⟨html, _, hp2⟩ :=
          processContent_eq convert (unlines (splitDocument lines).body) page1 page2 heq2
        subst hp
        subst hp2
        simp [generateURLs, hpage1]

/-- Witness for C10 at concrete inputs: the welcome file parses with
the same success status under a date parser that rejects everything
and one that accepts the file's date. -/
theorem parseDates_malformed_ignored_witness :
    (parseFile 7 tpNone exTomlDec exYamlDec convX "a.md" welcomeLines).isOk =
    (parseFile 7 tpWelcome exTomlDec exYamlDec convX "a.md" welcomeLines).isOk :=
  parseDates_malformed_ignored.2.1 7 tpNone tpWelcome exTomlDec exYamlDec convX "a.md" welcomeLines

/-- C3 (amended): the word count is computed from the body before
markup conversion — it is the number of whitespace-separated words of
the pre-conversion body with HTML tags stripped, so it does not depend
on the converter at all — and for the body of the welcome scenario
(the heading marker followed by one word) that number is 2, because
the Markdown heading marker counts as a word: only HTML tags are
stripped before counting, not Markdown syntax. -/
theorem wordCount_preconversion :
    (∀ (conv1 conv2 : String → Except String String) (content : String) (page p1 p2 : Page),
      processContent conv1 content page = Except.ok p1 →
      processContent conv2 content page = Except.ok p2 →
      p1.wordCount = (fields (stripHTML content)).length ∧
      p1.wordCount = p2.wordCount ∧ p1.readingTime = p2.readingTime)
    ∧ (fields (stripHTML "# Hi\n")).length = 2 := by
  refine ⟨?_, ?_⟩
  · intro conv1 conv2 content page p1 p2 h1 h2
    obtain ⟨html1, _, hp1⟩ := processContent_eq conv1 content page p1 h1
    obtain ⟨html2, _, hp2⟩ := processContent_eq conv2 content page p2 h2
    subst hp1
    subst hp2
    exact ⟨rfl, rfl, rfl⟩
  · rfl

/-- Counterexample for C3 as frozen: the welcome scenario document
(front matter title Welcome, date 2024-01-01, draft false; body a
heading marker and the word Hi) parses to a word count of 2, not 1. -/
theorem wordCount_welcome_counterexample :
    parseFile 999 tpWelcome welcomeDec welcomeDec exConvert "welcome.md" welcomeLines =
      Except.ok pageWelcome ∧
    Except.map Page.wordCount
      (parseFile 999 tpWelcome welcomeDec welcomeDec exConvert "welcome.md" welcomeLines) ≠
      Except.ok 1 := by
  refine ⟨rfl, ?_⟩
  intro h
  rw [show Except.map Page.wordCount
      (parseFile 999 tpWelcome welcomeDec welcomeDec exConvert "welcome.md" welcomeLines) =
      Except.ok 2 from rfl] at h
  injection h with h
  exact absurd h (by decide)

/-- Witness for C3 at a concrete conversion of the heading body. -/
theorem wordCount_preconversion_witness :
    pageHiX.wordCount = (fields (stripHTML "# Hi\n")).length :=
  (wordCount_preconversion.1 convX convX "# Hi\n" {} pageHiX pageHiX rfl rfl).1

/-- The parse-stage worker pool processed file by file: every queued
file contributes according to its own outcome alone, so one file's
failure never drops another file's page or error. -/
theorem contentWorkerRun_eq (parse : String → Except String Page)
    (bd bf : Bool) (now : Nat) (files : List String) :
    contentWorkerRun parse bd bf now files =
      (files.filterMap (fun f => match parse f with
          | Except.ok p => if shouldBuild p bd bf now then some p else none
          | Except.error _ => none),
       files.filterMap (fun f => match parse f with
          | Except.error e => some ("failed to parse " ++ f ++ ": " ++ e)
          | Except.ok _ => none)) := by
  induction files with
  | nil => rfl
  | cons f rest ih =>
    simp only [contentWorkerRun, ih, List.filterMap_cons]
    cases hp : parse f with
    | error e => simp [hp]
    | ok p =>
      by_cases hb : shouldBuild p bd bf now = true <;> simp [hp, hb]

/-- The render-stage worker pool likewise: every page contributes a
write or an error according to its own render outcome alone. -/
theorem pageWorkerRun_eq (render : Page → List Page → Except String String)
    (publicDir : String) (allPages pages : List Page) :
    pageWorkerRun render publicDir allPages pages =
      (pages.filterMap (fun p => match generatePage render publicDir allPages p with
          | Except.ok w => some w
          | Except.error _ => none),
       pages.filterMap (fun p => match generatePage render publicDir allPages p with
          | Except.error e => some ("failed to generate page " ++ p.filePath ++ ": " ++ e)
          | Except.ok _ => none)) := by
  induction pages with
  | nil => rfl
  | cons p rest ih =>
    simp only [pageWorkerRun, ih, List.filterMap_cons]
    cases hg : generatePage render publicDir allPages p with
    | error e => simp [hg]
    | ok w => simp [hg]

/-- C6 (amended): a per-document parse failure aborts no other file:
every queued file is still processed and all errors are collected;
the overall build result is the first collected parse error; but when
any parse fails the render stage is skipped entirely, so no document
is written to disk in that build (previously written output is simply
left in place); render-stage failures, by contrast, leave the
successfully rendered documents written. -/
theorem parseStage_failure_semantics :
    (∀ (parse : String → Except String Page) (bd bf : Bool) (now : Nat) (files : List String),
      contentWorkerRun parse bd bf now files =
        (files.filterMap (fun f => match parse f with
            | Except.ok p => if shouldBuild p bd bf now then some p else none
            | Except.error _ => none),
         files.filterMap (fun f => match parse f with
            | Except.error e => some ("failed to parse " ++ f ++ ": " ++ e)
            | Except.ok _ => none)))
    ∧ (∀ (parse : String → Except String Page)
        (render : Page → List Page → Except String String)
        (bd bf : Bool) (now : Nat) (publicDir : String) (files : List String)
        (e : String) (rest : List String),
        (contentWorkerRun parse bd bf now files).snd = e :: rest →
        build parse render bd bf now publicDir files =
          ⟨[], Except.error ("content parsing errors: " ++ e)⟩)
    ∧ (∀ (render : Page → List Page → Except String String)
        (publicDir : String) (allPages pages : List Page),
        pageWorkerRun render publicDir allPages pages =
          (pages.filterMap (fun p => match generatePage render publicDir allPages p with
              | Except.ok w => some w
              | Except.error _ => none),
           pages.filterMap (fun p => match generatePage render publicDir allPages p with
              | Except.error e => some ("failed to generate page " ++ p.filePath ++ ": " ++ e)
              | Except.ok _ => none))) := by
  refine ⟨?_, ?_, ?_⟩
  · exact fun parse bd bf now files => contentWorkerRun_eq parse bd bf now files
  · intro parse render bd bf now publicDir files e rest hsnd
    simp [build, parseContentParallel, hsnd]
  · exact fun render publicDir allPages pages => pageWorkerRun_eq render publicDir allPages pages

/-- Counterexample for C6 as frozen: in a batch where one file fails
to parse and another parses successfully, the successfully parsed page
is collected but nothing at all is written to disk in that build — the
claim's assertion that successfully processed documents are still
written fails for parse errors. -/
theorem parseStage_failure_counterexample :
    (contentWorkerRun exParse false false 0 ["bad.md", "good.md"]).fst = [exGoodPage] ∧
    (build exParse exRender false false 0 "public" ["bad.md", "good.md"]).writes = [] ∧
    (build exParse exRender false false 0 "public" ["bad.md", "good.md"]).result =
      Except.error "content parsing errors: failed to parse bad.md: boom" :=
  ⟨rfl, rfl, rfl⟩

/-- Witness for C6 at a concrete failing batch. -/
theorem parseStage_failure_semantics_witness :
    build exParse exRender false false 0 "public" ["bad.md"] =
      ⟨[], Except.error ("content parsing errors: " ++ "failed to parse bad.md: boom")⟩ :=
  parseStage_failure_semantics.2.1 exParse exRender false false 0 "public" ["bad.md"]
    "failed to parse bad.md: boom" [] rfl

/-- Events arriving within the quiescence window of the last triggered
rebuild never trigger: the watch loop stays quiescent over a trace
whose events all lie within debounceTime of the last-build clock. -/
theorem watchRun_quiescent (lb : Nat) (events : List FsEvent)
    (h : ∀ e ∈ events, e.time ≤ lb + debounceTime) :
    watchRun lb events = (lb, []) := by
  induction events with
  | nil => rfl
  | cons e rest ih =>
    have he : e.time ≤ lb + debounceTime := h e (List.mem_cons_self e rest)
    have hd : decide (debounceTime < e.time - lb) = false := by
      apply decide_eq_false
      omega
    have hstep : watchStep lb e = (lb, false) := by
      unfold watchStep
      split
      · rfl
      · simp [hd]
    simp only [watchRun, hstep]
    simp [ih (fun x hx => h x (List.mem_cons_of_mem e hx))]

/-- C7 (amended): the dev-loop rebuild limiter is a leading-edge
throttle: a qualifying write event arriving more than debounceTime
after the last triggered rebuild triggers exactly one rebuild (and so
exactly one broadcast), and every event within debounceTime of that
triggering event is dropped — the window is measured from the event
that triggered the last rebuild, not from the last qualifying event,
so a burst contained within one window of its first event collapses
into a single rebuild. -/
theorem watch_throttle_semantics (lastBuild0 : Nat) (e0 : FsEvent) (rest : List FsEvent)
    (hq : ignoredEvent e0.name = false) (hw : e0.isWrite = true)
    (hgap : debounceTime < e0.time - lastBuild0)
    (hburst : ∀ e ∈ rest, e.time ≤ e0.time + debounceTime) :
    watchRun lastBuild0 (e0 :: rest) = (e0.time, [e0.time]) := by
  have hstep : watchStep lastBuild0 e0 = (e0.time, true) := by
    unfold watchStep
    rw [if_neg (by simp [hq])]
    rw [if_pos (by simp [hw, hgap])]
  simp only [watchRun, hstep]
  simp [watchRun_quiescent e0.time rest hburst]

/-- Counterexample for C7 as frozen: three qualifying write events to
the same file, successive events 200 milliseconds apart (each within
one 300 millisecond window of the previous event), trigger two
rebuilds, not one: the third event falls outside the window of the
first (triggering) event even though it is within the window of the
second. -/
theorem watch_debounce_counterexample :
    (watchRun 0 burstEvents).snd = [1000, 1400] ∧
    (watchRun 0 burstEvents).snd.length ≠ 1 :=
  ⟨rfl, by decide⟩

/-- Witness for C7 at a concrete two-event burst within one window. -/
theorem watch_throttle_semantics_witness :
    watchRun 0 [⟨"content/a.md", true, 1000⟩, ⟨"content/a.md", true, 1200⟩] =
      (1000, [1000]) :=
  watch_throttle_semantics 0 ⟨"content/a.md", true, 1000⟩
    [⟨"content/a.md", true, 1200⟩] rfl rfl (by decide) (by decide)

/-- A parse-stage error empties the build's writes. -/
theorem build_writes_of_parse_error (parse : String → Except String Page)
    (render : Page → List Page → Except String String) (bd bf : Bool) (now : Nat)
    (publicDir : String) (order : List String) (e : String) (rest : List String)
    (h : (contentWorkerRun parse bd bf now order).snd = e :: rest) :
    (build parse render bd bf now publicDir order).writes = [] := by
  simp [build, parseContentParallel, h]

/-- With no parse errors, the build's writes are the render pool's
writes over the collected page set. -/
theorem build_writes_of_parse_ok (parse : String → Except String Page)
    (render : Page → List Page → Except String String) (bd bf : Bool) (now : Nat)
    (publicDir : String) (order : List String)
    (h : (contentWorkerRun parse bd bf now order).snd = []) :
    (build parse render bd bf now publicDir order).writes =
      (pageWorkerRun render publicDir (contentWorkerRun parse bd bf now order).fst
        (contentWorkerRun parse bd bf now order).fst).fst := by
  cases hsnd : (pageWorkerRun render publicDir (contentWorkerRun parse bd bf now order).fst
      (contentWorkerRun parse bd bf now order).fst).snd <;>
    simp [build, parseContentParallel, h, hsnd]

/-- C8 (amended): the pipeline is a pure function of its inputs and of
the order in which the scheduler collects parsed pages — two builds
with the same collection order write identical bytes.  Across two
different schedules the written files agree up to permutation of the
write list, and the bytes of an individual document coincide exactly
when the selected template's output is insensitive to the order of the
full page set it receives; for an order-sensitive template (one that
ranges over the page list) two schedules can write different bytes for
the same slug. -/
theorem build_deterministic_up_to_collection (parse : String → Except String Page)
    (render : Page → List Page → Except String String) (bd bf : Bool) (now : Nat)
    (publicDir : String) (order1 order2 : List String)
    (hperm : order1.Perm order2)
    (hrender : ∀ (p : Page) (l1 l2 : List Page), l1.Perm l2 → render p l1 = render p l2) :
    ((build parse render bd bf now publicDir order1).writes).Perm
      ((build parse render bd bf now publicDir order2).writes) := by
  have hpg : ((contentWorkerRun parse bd bf now order1).fst).Perm
      ((contentWorkerRun parse bd bf now order2).fst) := by
    rw [contentWorkerRun_eq, contentWorkerRun_eq]
    exact hperm.filterMap _
  have herr : ((contentWorkerRun parse bd bf now order1).snd).Perm
      ((contentWorkerRun parse bd bf now order2).snd) := by
    rw [contentWorkerRun_eq, contentWorkerRun_eq]
    exact hperm.filterMap _
  cases h1 : (contentWorkerRun parse bd bf now order1).snd with
  | cons e es =>
    rw [h1] at herr
    cases h2 : (contentWorkerRun parse bd bf now order2).snd with
    | nil =>
      rw [h2] at herr
      exact absurd herr.eq_nil (by simp)
    | cons e2 es2 =>
      rw [build_writes_of_parse_error parse render bd bf now publicDir order1 e es h1,
        build_writes_of_parse_error parse render bd bf now publicDir order2 e2 es2 h2]
  | nil =>
    rw [h1] at herr
    have h2 : (contentWorkerRun parse bd bf now order2).snd = [] := herr.symm.eq_nil
    rw [build_writes_of_parse_ok parse render bd bf now publicDir order1 h1,
      build_writes_of_parse_ok parse render bd bf now publicDir order2 h2,
      pageWorkerRun_eq, pageWorkerRun_eq]
    have hcong : (contentWorkerRun parse bd bf now order2).fst.filterMap
        (fun p => match generatePage render publicDir
            (contentWorkerRun parse bd bf now order1).fst p with
          | Except.ok w => some w
          | Except.error _ => none) =
        (contentWorkerRun parse bd bf now order2).fst.filterMap
        (fun p => match generatePage render publicDir
            (contentWorkerRun parse bd bf now order2).fst p with
          | Except.ok w => some w
          | Except.error _ => none) := by
      apply List.filterMap_congr
      intro p _
      have hg : generatePage render publicDir (contentWorkerRun parse bd bf now order1).fst p =
          generatePage render publicDir (contentWorkerRun parse bd bf now order2).fst p := by
        unfold generatePage
        rw [hrender p _ _ hpg]
      rw [hg]
    exact (hpg.filterMap _).trans (by rw [hcong])

/-- Counterexample for C8 as frozen: under an order-sensitive template
(concatenating the titles of the full page set in collection order)
the same document (slug a) is written with different bytes in two
builds that differ only in the scheduler's collection order. -/
theorem build_schedule_counterexample :
    (build exParseAB renderTitles false false 0 "public" ["a.md", "b.md"]).writes =
      [("public/a/index.html", "AB"), ("public/b/index.html", "AB")] ∧
    (build exParseAB renderTitles false false 0 "public" ["b.md", "a.md"]).writes =
      [("public/b/index.html", "BA"), ("public/a/index.html", "BA")] ∧
    assocLookup (build exParseAB renderTitles false false 0 "public" ["a.md", "b.md"]).writes
      "public/a/index.html" = some "AB" ∧
    assocLookup (build exParseAB renderTitles false false 0 "public" ["b.md", "a.md"]).writes
      "public/a/index.html" = some "BA" ∧
    "AB" ≠ "BA" :=
  ⟨rfl, rfl, rfl, rfl, by decide⟩

/-- Witness for C8 at a concrete build with an order-insensitive
render function. -/
theorem build_deterministic_up_to_collection_witness :
    ((build exParse exRender false false 0 "public" ["good.md"]).writes).Perm
      ((build exParse exRender false false 0 "public" ["good.md"]).writes) :=
  build_deterministic_up_to_collection exParse exRender false false 0 "public"
    ["good.md"] ["good.md"] (List.Perm.refl _) (fun _ _ _ _ => rfl)

end Vango
